import Mathlib

/-!
Discover result pagination (`organizationDiscover/result/pagination.jsx`)

A shallow embedding of the `Pagination` React component: its props, the
JavaScript value coercions that `getPageNumber` relies on (`String.split`,
`ToNumber` on strings, `-`, `+`, number-to-string), the element tree returned
by `render`, and the text a browser shows for the range label.

Numbers.  A JavaScript number is an IEEE-754 double.  A finite double is kept as
the rational it denotes (`JSNumber.fin q`); string conversion, `-` and `+` round
their exact result to the nearest double (`roundDouble`), and number-to-string
conversion prints the shortest decimal that converts back.  The two zeros are not
told apart: they print alike and no operation used here separates them.
-/

namespace Pagination

/-! ## JavaScript values -/

/-- A JavaScript number: `NaN`, plus or minus `Infinity`, or a finite double, given by
the rational it denotes. -/
inductive JSNumber where
  | nan
  | inf (neg : Bool)
  | fin (q : ℚ)
  deriving DecidableEq

/-- The value of a prop declared `PropTypes.string` and not required:
`undefined`, `null`, or a string. -/
inductive Cursor where
  | undefined
  | null
  | str (s : String)
  deriving DecidableEq

/-- What `next.split(':')[1]` can be: a string, or `undefined` when the array is too short. -/
inductive Field where
  | undefined
  | str (s : String)
  deriving DecidableEq

/-- An exception raised by the engine. -/
inductive JSError where
  | typeError (msg : String)
  deriving DecidableEq

/-- The JavaScript truthiness of a cursor prop: only a non-empty string is truthy. -/
def Cursor.truthy : Cursor → Bool
  | .str s => !(s.data.isEmpty)
  | _ => false

/-! ## `String.prototype.split` with a one-character separator -/

/-- The list of fields of `cs` separated by `sep` (as `cs.split(sep)` returns them). -/
def splitOn (sep : Char) : List Char → List (List Char)
  | [] => [[]]
  | c :: cs =>
    if c = sep then [] :: splitOn sep cs
    else
      match splitOn sep cs with
      | [] => [[c]]
      | f :: fs => (c :: f) :: fs

/-- The expression `s.split(':')`. -/
def split (s : String) : List String :=
  (splitOn ':' s.data).map String.mk

/-- Array indexing `arr[i]`, which yields `undefined` past the end. -/
def index (arr : List String) (i : Nat) : Field :=
  match arr.get? i with
  | some s => .str s
  | none => .undefined

/-! ## Rounding to a double -/

/-- The integer nearest to `x`, the even one of the two when `x` lies halfway. -/
def roundHalfEven (x : ℚ) : Int :=
  if x - ⌊x⌋ < 1 / 2 then ⌊x⌋
  else if 1 / 2 < x - ⌊x⌋ then ⌊x⌋ + 1
  else if ⌊x⌋ % 2 = 0 then ⌊x⌋ else ⌊x⌋ + 1

/-- The spacing of the doubles around `q`: `2 ^ (e - 52)` for `2 ^ e ≤ |q| < 2 ^ (e + 1)`,
with `e` no less than `-1022` (the subnormal range). -/
def ulp (q : ℚ) : ℚ := 2 ^ (max (Int.log 2 |q|) (-1022) - 52)

/-- The double that the real number `q` rounds to (to nearest, ties to even);
`Infinity` with the sign of `q` once the rounded value reaches `2 ^ 1024`. -/
def roundDouble (q : ℚ) : JSNumber :=
  if q = 0 then .fin 0
  else if (2 : ℚ) ^ (1024 : Int) ≤ |(roundHalfEven (q / ulp q) : ℚ) * ulp q| then
    .inf (decide (q < 0))
  else .fin ((roundHalfEven (q / ulp q) : ℚ) * ulp q)

/-! ## `ToNumber` applied to a string (StringToNumber) -/

/-- The characters of `StrWhiteSpaceChar`: white space and line terminators. -/
def isStrWhiteSpace (c : Char) : Bool :=
  let n := c.toNat
  n == 0x9 || n == 0xA || n == 0xB || n == 0xC || n == 0xD || n == 0x20 || n == 0xA0
    || n == 0x1680 || (0x2000 ≤ n && n ≤ 0x200A) || n == 0x2028 || n == 0x2029
    || n == 0x202F || n == 0x205F || n == 0x3000 || n == 0xFEFF

/-- Removes leading and trailing `StrWhiteSpaceChar`s. -/
def trim (cs : List Char) : List Char :=
  ((cs.dropWhile isStrWhiteSpace).reverse.dropWhile isStrWhiteSpace).reverse

/-- The value of a digit in a radix up to 16, if the character is one. -/
def digitValue (c : Char) : Option Nat :=
  let n := c.toNat
  if 48 ≤ n ∧ n ≤ 57 then some (n - 48)
  else if 97 ≤ n ∧ n ≤ 102 then some (n - 87)
  else if 65 ≤ n ∧ n ≤ 70 then some (n - 55)
  else none

/-- Whether `c` is a digit of radix `b`. -/
def isRadixDigit (b : Nat) (c : Char) : Bool :=
  match digitValue c with
  | some d => decide (d < b)
  | none => false

/-- The mathematical value of a digit string in radix `b`, most significant digit first. -/
def radixValue (b : Nat) (ds : List Char) : Nat :=
  ds.foldl (fun acc c => b * acc + (digitValue c).getD 0) 0

/-- The body of a `NonDecimalIntegerLiteral` after its `0x`, `0o` or `0b` marker. -/
def radixLiteral (b : Nat) (ds : List Char) : JSNumber :=
  if !ds.isEmpty && ds.all (isRadixDigit b) then roundDouble (radixValue b ds) else .nan

/-- An optional `ExponentPart` that must use up the rest of the literal:
`none` when what follows the mantissa is not an exponent part. -/
def exponentPart : List Char → Option Int
  | [] => some 0
  | e :: rest =>
    if e = 'e' ∨ e = 'E' then
      let signed : Bool × List Char :=
        match rest with
        | '+' :: r => (false, r)
        | '-' :: r => (true, r)
        | r => (false, r)
      if !signed.2.isEmpty && signed.2.all (isRadixDigit 10) then
        some (if signed.1 then -(radixValue 10 signed.2 : Int) else (radixValue 10 signed.2 : Int))
      else none
    else none

/-- A `StrUnsignedDecimalLiteral`: `Infinity`, or digits with an optional fraction
and exponent, at least one digit in the mantissa. -/
def unsignedDecimal (cs : List Char) : JSNumber :=
  if cs = "Infinity".data then .inf false
  else
    let ip := cs.span (isRadixDigit 10)
    let fp : List Char × List Char :=
      match ip.2 with
      | '.' :: r => r.span (isRadixDigit 10)
      | r => ([], r)
    if ip.1.isEmpty && fp.1.isEmpty then .nan
    else
      match exponentPart fp.2 with
      | none => .nan
      | some e =>
        roundDouble ((radixValue 10 (ip.1 ++ fp.1) : ℚ) * (10 : ℚ) ^ (e - (fp.1.length : Int)))

/-- Unary minus on numbers. -/
def JSNumber.neg : JSNumber → JSNumber
  | .nan => .nan
  | .inf b => .inf (!b)
  | .fin q => .fin (-q)

/-- A `StrDecimalLiteral`: an unsigned literal with an optional sign. -/
def signedDecimal : List Char → JSNumber
  | '+' :: cs => unsignedDecimal cs
  | '-' :: cs => (unsignedDecimal cs).neg
  | cs => unsignedDecimal cs

/-- StringToNumber: the double nearest to the value of the literal, `NaN` when the
string is not a `StringNumericLiteral`. -/
def stringToNumber (s : String) : JSNumber :=
  match trim s.data with
  | [] => .fin 0
  | '0' :: x :: rest =>
    if x = 'x' ∨ x = 'X' then radixLiteral 16 rest
    else if x = 'o' ∨ x = 'O' then radixLiteral 8 rest
    else if x = 'b' ∨ x = 'B' then radixLiteral 2 rest
    else signedDecimal ('0' :: x :: rest)
  | cs => signedDecimal cs

/-- ToNumber on the values `endRange` can take: `undefined` converts to `NaN`. -/
def Field.toNumber : Field → JSNumber
  | .undefined => .nan
  | .str s => stringToNumber s

/-! ## Arithmetic -/

/-- The operator `-` on numbers: the exact difference, rounded to a double. -/
def JSNumber.sub : JSNumber → JSNumber → JSNumber
  | .nan, _ => .nan
  | _, .nan => .nan
  | .inf a, .inf b => if a = b then .nan else .inf a
  | .inf a, .fin _ => .inf a
  | .fin _, .inf b => .inf (!b)
  | .fin x, .fin y => roundDouble (x - y)

/-- The operator `+` on numbers: the exact sum, rounded to a double. -/
def JSNumber.add : JSNumber → JSNumber → JSNumber
  | .nan, _ => .nan
  | _, .nan => .nan
  | .inf a, .inf b => if a = b then .inf a else .nan
  | .inf a, .fin _ => .inf a
  | .fin _, .inf b => .inf b
  | .fin x, .fin y => roundDouble (x + y)

/-- An integer-valued number prop or literal, as the number it is: `z` is the value of
the double that the prop holds. -/
def JSNumber.ofInt (z : Int) : JSNumber := .fin z

/-- The `k`-digit decimal `s * 10 ^ (n - k)` nearest to the positive double `x` among
those that convert back to `x`, as `(s, n)`, if there is one.  Only the two `k`-digit
decimals next to `x` can convert back to it. -/
def shortestAt (x : ℚ) (k : Nat) : Option (Int × Int) :=
  let n := Int.log 10 x + 1
  let scale : ℚ := 10 ^ (n - k)
  let lo : Int := ⌊x / scale⌋
  let hi : Int := lo + 1
  let okLo : Bool := decide (roundDouble (lo * scale) = .fin x)
  let okHi : Bool := decide (roundDouble (hi * scale) = .fin x)
  let useHi : Bool :=
    okHi && (!okLo || decide (hi * scale - x < x - lo * scale)
      || (decide (hi * scale - x = x - lo * scale) && decide (hi % 2 = 0)))
  if useHi then
    if hi = 10 ^ k then some (10 ^ (k - 1), n + 1) else some (hi, n)
  else if okLo then some (lo, n)
  else none

/-- The shortest decimal that converts back to `x`, as `(k, s, n)`: tries `k` digits,
then `k + 1`, for `fuel` lengths (17 digits always suffice for a double). -/
def shortestFrom (x : ℚ) : Nat → Nat → Option (Nat × Int × Int)
  | 0, _ => none
  | fuel + 1, k =>
    match shortestAt x k with
    | some (s, n) => some (k, s, n)
    | none => shortestFrom x fuel (k + 1)

/-- The text of the positive number `s * 10 ^ (n - k)`, where `s` has `k` digits:
positional for `-5 ≤ n ≤ 21`, with an exponent otherwise. -/
def formatDecimal (k : Nat) (s n : Int) : String :=
  let ds := Nat.toDigits 10 s.toNat
  if -5 ≤ n ∧ n ≤ 21 then
    if (k : Int) ≤ n then String.mk (ds ++ List.replicate (n - k).toNat '0')
    else if 0 < n then String.mk (ds.take n.toNat ++ '.' :: ds.drop n.toNat)
    else String.mk ('0' :: '.' :: List.replicate (-n).toNat '0' ++ ds)
  else
    let es := (if 0 < n - 1 then '+' else '-') :: Nat.toDigits 10 (n - 1).natAbs
    if k = 1 then String.mk (ds ++ 'e' :: es)
    else String.mk (ds.take 1 ++ '.' :: ds.drop 1 ++ 'e' :: es)

/-- Number-to-string conversion of a positive double; `none` if `x` is no double. -/
def positiveToText (x : ℚ) : Option String :=
  (shortestFrom x 17 1).map fun r => formatDecimal r.1 r.2.1 r.2.2

/-- Number-to-string conversion (`Number::toString`, radix 10).  An integer of magnitude
at most `2 ^ 53` prints as its decimal numeral: its shortest decimal is the integer
itself.  The result is `none` only for a rational that is not a double. -/
def JSNumber.toText : JSNumber → Option String
  | .nan => some "NaN"
  | .inf false => some "Infinity"
  | .inf true => some "-Infinity"
  | .fin q =>
    if q.den = 1 ∧ q.num.natAbs ≤ 2 ^ 53 then some (toString q.num)
    else if q < 0 then (positiveToText (-q)).map fun t => "-" ++ t
    else positiveToText q

/-! ## Elements -/

/-- A child of a JSX element: literal text or the value of a `{...}` expression. -/
inductive Child where
  | text (s : String)
  | num (x : JSNumber)
  | val (v : Field)
  deriving DecidableEq

/-- The text React puts in the DOM for a child: numbers and strings are shown,
`undefined` shows nothing. -/
def Child.toText : Child → Option String
  | .text s => some s
  | .num x => x.toText
  | .val (.str s) => some s
  | .val .undefined => some ""

/-- A `<NumberResultsShown>` element with its children. -/
structure NumberResultsShown where
  children : List Child
  deriving DecidableEq

/-- The text content of the label. -/
def NumberResultsShown.text (l : NumberResultsShown) : Option String :=
  l.children.foldl (fun acc c => acc.bind fun a => (Child.toText c).map fun t => a ++ t) (some "")

/-- A `<Button>` element; `α` is the type of click handlers. -/
structure Button (α : Type) where
  className : String
  disabled : Bool
  size : String
  icon : String
  onClick : α

/-- A `<PaginationButtons>` element. -/
structure PaginationButtons (α : Type) where
  className : String
  children : List (Button α)

/-- The value of `next && this.getPageNumber()`: the falsy `next` itself, or the label. -/
inductive Slot where
  | value (c : Cursor)
  | element (l : NumberResultsShown)
  deriving DecidableEq

/-- The `<React.Fragment>` returned by `render`. -/
structure Fragment (α : Type) where
  buttons : PaginationButtons α
  slot : Slot

/-- The result of a call together with what it printed through `console.log`. -/
structure Traced (β : Type) where
  console : List Int
  value : β

/-! ## The component -/

/-- The props of `Pagination`. -/
structure Props (α : Type) where
  getNextPage : α
  getPreviousPage : α
  previous : Cursor
  next : Cursor
  pageLimit : Int
  dataLength : Int

/-- The method `getPageNumber`. -/
def getPageNumber {α : Type} (p : Props α) : Except JSError (Traced NumberResultsShown) :=
  match p.next with
  | .undefined => .error (.typeError "Cannot read property split of undefined")
  | .null => .error (.typeError "Cannot read property split of null")
  | .str next =>
    let endRange := index (split next) 1
    let console := [p.dataLength]
    if p.dataLength ≠ 0 then
      let from_ := ((endRange.toNumber).sub (.ofInt p.pageLimit)).add (.ofInt 1)
      let to_ : Child :=
        if p.dataLength < p.pageLimit then .num (from_.add (.ofInt p.dataLength))
        else .val endRange
      .ok ⟨console, ⟨[.text "Results ", .num from_, .text " - ", to_]⟩⟩
    else
      .ok ⟨console, ⟨[.text "0 Results"]⟩⟩

/-- The `<PaginationButtons>` element that `render` builds. -/
def paginationButtons {α : Type} (p : Props α) : PaginationButtons α :=
  { className := "btn-group"
    children :=
      [ { className := "btn", disabled := !p.previous.truthy, size := "xsmall",
          icon := "icon-chevron-left", onClick := p.getPreviousPage },
        { className := "btn", disabled := !p.next.truthy, size := "xsmall",
          icon := "icon-chevron-right", onClick := p.getNextPage } ] }

/-- The method `render`.  The operand `this.getPageNumber()` of `&&` is evaluated
only when `next` is truthy. -/
def render {α : Type} (p : Props α) : Except JSError (Traced (Fragment α)) :=
  if p.next.truthy then
    match getPageNumber p with
    | .ok l => .ok ⟨l.console, ⟨paginationButtons p, .element l.value⟩⟩
    | .error e => .error e
  else
    .ok ⟨[], ⟨paginationButtons p, .value p.next⟩⟩

/-- A call of a handler: the function called and the arguments passed to it. -/
structure Call (α : Type) where
  callee : α
  args : List Field

/-- Modelled from the spec: the click dispatch of the `Button` widget
(`app/components/button`, not part of this file): "Clicking an enabled ... button
invokes" its handler "with no arguments", "Clicking a disabled button invokes
neither callback".  The result lists the calls that one click makes, in order. -/
def Button.click {α : Type} (b : Button α) : List (Call α) :=
  if b.disabled then [] else [⟨b.onClick, []⟩]

/-! ## Facts about rounding -/

theorem roundHalfEven_intCast (z : Int) : roundHalfEven (z : ℚ) = z := by
  simp [roundHalfEven]

/-- A rational that is a whole number of spacings, below `2 ^ 1024`, is a double. -/
theorem roundDouble_of_grid (q : ℚ) (m : Int) (hq : q = m * ulp q)
    (hlt : |q| < (2 : ℚ) ^ (1024 : Int)) : roundDouble q = .fin q := by
  have hu : ulp q ≠ 0 := by unfold ulp; positivity
  have hm : q / ulp q = (m : ℚ) := by rw [div_eq_iff hu]; exact hq
  unfold roundDouble
  by_cases h0 : q = 0
  · simp [h0]
  · rw [if_neg h0, hm, roundHalfEven_intCast, ← hq, if_neg (not_le.2 hlt)]

theorem log2_eq (q : ℚ) (e : Int) (h1 : (2 : ℚ) ^ e ≤ |q|) (h2 : |q| < (2 : ℚ) ^ (e + 1)) :
    Int.log 2 |q| = e := by
  have hpos : 0 < |q| := lt_of_lt_of_le (by positivity) h1
  apply le_antisymm
  · have := (Int.lt_zpow_iff_log_lt (b := 2) (by norm_num) hpos (x := e + 1)).1 (by exact_mod_cast h2)
    omega
  · exact (Int.zpow_le_iff_le_log (b := 2) (by norm_num) hpos).1 (by exact_mod_cast h1)

theorem ulp_of_binade (q : ℚ) (e : Int) (he : -1022 ≤ e) (h1 : (2 : ℚ) ^ e ≤ |q|)
    (h2 : |q| < (2 : ℚ) ^ (e + 1)) : ulp q = 2 ^ (e - 52) := by
  unfold ulp
  rw [log2_eq q e h1 h2, max_eq_left he]

/-- Every integer of magnitude at most `2 ^ 53` is a double. -/
theorem roundDouble_int (z : Int) (hz : |z| ≤ 2 ^ 53) : roundDouble (z : ℚ) = .fin z := by
  by_cases h0 : z = 0
  · simp [h0, roundDouble]
  have hzq : |(z : ℚ)| ≤ 2 ^ 53 := by exact_mod_cast hz
  have hpos : 0 < |(z : ℚ)| := abs_pos.2 (by exact_mod_cast h0)
  have hone : (1 : ℚ) ≤ |(z : ℚ)| := by
    have : (1 : Int) ≤ |z| := Int.one_le_abs h0
    exact_mod_cast this
  have hlt : |(z : ℚ)| < (2 : ℚ) ^ (1024 : Int) :=
    lt_of_le_of_lt hzq (by norm_num)
  have he0 : 0 ≤ Int.log 2 |(z : ℚ)| :=
    (Int.zpow_le_iff_le_log (b := 2) (by norm_num) hpos).1 (by simpa using hone)
  have he53 : Int.log 2 |(z : ℚ)| < 54 :=
    (Int.lt_zpow_iff_log_lt (b := 2) (by norm_num) hpos).1
      (lt_of_le_of_lt hzq (by norm_num))
  have hu : ulp (z : ℚ) = 2 ^ (Int.log 2 |(z : ℚ)| - 52) := by
    unfold ulp; rw [max_eq_left (by omega)]
  by_cases h52 : Int.log 2 |(z : ℚ)| ≤ 52
  · obtain ⟨k, hk⟩ : ∃ k : Nat, Int.log 2 |(z : ℚ)| - 52 = -(k : Int) :=
      ⟨(52 - Int.log 2 |(z : ℚ)|).toNat, by omega⟩
    refine roundDouble_of_grid _ (z * 2 ^ k) ?_ hlt
    rw [hu, hk, zpow_neg, zpow_natCast]
    push_cast
    field_simp
  · have h53 : Int.log 2 |(z : ℚ)| = 53 := by omega
    have hge : (2 : ℚ) ^ (53 : Int) ≤ |(z : ℚ)| := by
      have := Int.zpow_log_le_self (b := 2) (by norm_num) hpos
      rw [h53] at this; exact_mod_cast this
    have habs : |z| = 2 ^ 53 := by
      have : (2 : Int) ^ 53 ≤ |z| := by exact_mod_cast hge
      omega
    obtain ⟨w, hw⟩ : ∃ w : Int, z = 2 * w := by
      rcases abs_eq (by norm_num : (0 : Int) ≤ 2 ^ 53) |>.1 habs with h | h
      · exact ⟨2 ^ 52, by rw [h]; norm_num⟩
      · exact ⟨-2 ^ 52, by rw [h]; norm_num⟩
    refine roundDouble_of_grid _ w ?_ hlt
    rw [hu, h53, hw]
    push_cast
    norm_num
    ring

theorem roundDouble_2p53_add_one :
    roundDouble 9007199254740993 = .fin 9007199254740992 := by
  have hu : ulp 9007199254740993 = 2 :=
    (ulp_of_binade 9007199254740993 53 (by norm_num) (by norm_num [abs_of_pos])
      (by norm_num [abs_of_pos])).trans (by norm_num)
  have hf : ⌊(9007199254740993 : ℚ) / 2⌋ = 4503599627370496 := by
    rw [Int.floor_eq_iff]; constructor <;> norm_num
  have hr : roundHalfEven ((9007199254740993 : ℚ) / 2) = 4503599627370496 := by
    unfold roundHalfEven
    rw [hf]
    norm_num
  unfold roundDouble
  rw [hu, hr]
  norm_num

/-! ## Facts about `split` -/

theorem splitOn_no_sep (sep : Char) (cs : List Char) (h : sep ∉ cs) : splitOn sep cs = [cs] := by
  induction cs with
  | nil => simp [splitOn]
  | cons c cs ih =>
    have hc : c ≠ sep := fun e => h (by simp [e])
    have hcs : sep ∉ cs := fun e => h (by simp [e])
    simp [splitOn, hc, ih hcs]

theorem splitOn_append (sep : Char) (pre rest : List Char) (h : sep ∉ pre) :
    splitOn sep (pre ++ sep :: rest) = pre :: splitOn sep rest := by
  induction pre with
  | nil => simp [splitOn]
  | cons c cs ih =>
    have hc : c ≠ sep := fun e => h (by simp [e])
    have hcs : sep ∉ cs := fun e => h (by simp [e])
    simp [splitOn, hc, ih hcs]

/-- Without a separator in the string, `split(':')[1]` is `undefined`. -/
theorem index_split_no_colon (s : String) (h : ':' ∉ s.data) :
    index (split s) 1 = .undefined := by
  simp [index, split, splitOn_no_sep _ _ h]

/-- The second field of `pre:d` is `d` when neither part holds a colon. -/
theorem index_split_two (pre d : String) (hp : ':' ∉ pre.data) (hd : ':' ∉ d.data) :
    index (split (pre ++ ":" ++ d)) 1 = .str d := by
  have e : (pre ++ ":" ++ d).data = pre.data ++ ':' :: d.data := by
    simp [String.data_append]
  simp [index, split, e, splitOn_append _ _ _ hp, splitOn_no_sep _ _ hd]

/-! ## Facts about decimal digit strings -/

theorem isDigit_iff (c : Char) : c.isDigit = true ↔ 48 ≤ c.toNat ∧ c.toNat ≤ 57 := by
  simp only [Char.isDigit, Char.toNat, Bool.and_eq_true, decide_eq_true_eq, ge_iff_le]
  rfl

theorem digitValue_of_isDigit (c : Char) (h : c.isDigit = true) :
    digitValue c = some (c.toNat - 48) := by
  have h2 := (isDigit_iff c).1 h
  simp [digitValue, h2]

theorem isRadixDigit_ten (c : Char) : isRadixDigit 10 c = c.isDigit := by
  rw [Bool.eq_iff_iff, isDigit_iff]
  unfold isRadixDigit digitValue
  simp only []
  split_ifs <;> simp <;> omega

theorem not_whiteSpace_of_isDigit (c : Char) (h : c.isDigit = true) :
    isStrWhiteSpace c = false := by
  have h2 := (isDigit_iff c).1 h
  simp only [isStrWhiteSpace, Bool.or_eq_false_iff, Bool.and_eq_false_iff, beq_eq_false_iff_ne,
    decide_eq_false_iff_not]
  omega

theorem dropWhile_eq_self {p : Char → Bool} (l : List Char) (h : ∀ c ∈ l, p c = false) :
    l.dropWhile p = l := by
  cases l with
  | nil => rfl
  | cons c t => simp [List.dropWhile, h c (by simp)]

theorem trim_digits (ds : List Char) (h : ∀ c ∈ ds, c.isDigit = true) : trim ds = ds := by
  have hw : ∀ c ∈ ds, isStrWhiteSpace c = false := fun c hc => not_whiteSpace_of_isDigit c (h c hc)
  unfold trim
  rw [dropWhile_eq_self ds hw, dropWhile_eq_self ds.reverse (fun c hc => hw c (by simpa using hc))]
  simp

theorem span_digits (ds : List Char) (h : ∀ c ∈ ds, c.isDigit = true) :
    ds.span (isRadixDigit 10) = (ds, []) := by
  rw [List.span_eq_take_drop]
  have h1 : ds.takeWhile (isRadixDigit 10) = ds := by
    rw [List.takeWhile_eq_self_iff]; intro c hc; rw [isRadixDigit_ten]; exact h c hc
  have h2 : ds.dropWhile (isRadixDigit 10) = [] := by
    rw [List.dropWhile_eq_nil_iff]; intro c hc; rw [isRadixDigit_ten]; exact h c hc
  rw [h1, h2]

theorem unsignedDecimal_digits (ds : List Char) (hne : ds ≠ [])
    (h : ∀ c ∈ ds, c.isDigit = true) : unsignedDecimal ds = roundDouble (radixValue 10 ds) := by
  have hI : ds ≠ "Infinity".data := by
    intro e
    have := h 'I' (by rw [e]; decide)
    exact absurd this (by decide)
  have hemp : ds.isEmpty = false := by cases ds <;> simp_all
  unfold unsignedDecimal
  rw [if_neg hI]
  simp only [span_digits ds h]
  simp [exponentPart, hemp]

theorem signedDecimal_digits (ds : List Char) (hne : ds ≠ [])
    (h : ∀ c ∈ ds, c.isDigit = true) : signedDecimal ds = roundDouble (radixValue 10 ds) := by
  rw [← unsignedDecimal_digits ds hne h]
  unfold signedDecimal
  split
  · exact absurd (h '+' (by simp)) (by decide)
  · exact absurd (h '-' (by simp)) (by decide)
  · rfl

/-- A non-empty string of decimal digits converts to the double nearest to the number
it denotes. -/
theorem stringToNumber_digits (d : String) (hne : d.data ≠ [])
    (h : ∀ c ∈ d.data, c.isDigit = true) :
    stringToNumber d = roundDouble (radixValue 10 d.data) := by
  unfold stringToNumber
  rw [trim_digits d.data h]
  split
  · rename_i e; exact absurd e hne
  · rename_i x rest e
    have hx : x.isDigit = true := h x (by rw [e]; simp)
    have h2 := (isDigit_iff x).1 hx
    have n1 : ¬ (x = 'x' ∨ x = 'X') := by
      rintro (r | r) <;> (rw [r] at h2; revert h2; decide)
    have n2 : ¬ (x = 'o' ∨ x = 'O') := by
      rintro (r | r) <;> (rw [r] at h2; revert h2; decide)
    have n3 : ¬ (x = 'b' ∨ x = 'B') := by
      rintro (r | r) <;> (rw [r] at h2; revert h2; decide)
    rw [if_neg n1, if_neg n2, if_neg n3, ← e]
    exact signedDecimal_digits d.data hne h
  · exact signedDecimal_digits d.data hne h

/-! ## The canonical decimal numeral of a natural number -/

theorem digitChar_spec : ∀ k, k < 10 →
    (Nat.digitChar k).isDigit = true ∧ digitValue (Nat.digitChar k) = some k := by
  decide

theorem radixValue_append (b : Nat) (xs : List Char) (c : Char) :
    radixValue b (xs ++ [c]) = b * radixValue b xs + (digitValue c).getD 0 := by
  simp [radixValue, List.foldl_append]

theorem toDigitsCore_spec (fuel : Nat) : ∀ (n : Nat) (acc : List Char), n < fuel →
    ∃ pre, Nat.toDigitsCore 10 fuel n acc = pre ++ acc ∧ pre ≠ [] ∧
      (∀ c ∈ pre, c.isDigit = true) ∧ radixValue 10 pre = n := by
  induction fuel with
  | zero => intro n acc h; omega
  | succ fuel ih =>
    intro n acc h
    have hd := digitChar_spec (n % 10) (Nat.mod_lt _ (by decide))
    simp only [Nat.toDigitsCore]
    split
    · rename_i h0
      refine ⟨[Nat.digitChar (n % 10)], by simp, by simp, ?_, ?_⟩
      · intro c hc; simp at hc; rw [hc]; exact hd.1
      · simp [radixValue, hd.2]; omega
    · rename_i h0
      obtain ⟨pre, e, -, hdig, hval⟩ := ih (n / 10) (Nat.digitChar (n % 10) :: acc) (by omega)
      refine ⟨pre ++ [Nat.digitChar (n % 10)], by simp [e], by simp, ?_, ?_⟩
      · intro c hc
        rcases List.mem_append.1 hc with hc | hc
        · exact hdig c hc
        · simp at hc; rw [hc]; exact hd.1
      · rw [radixValue_append, hval, hd.2]; simp; omega

/-- The decimal numeral of `n` is a non-empty digit string that denotes `n`. -/
theorem toString_nat_spec (n : Nat) :
    (toString n).data ≠ [] ∧ (∀ c ∈ (toString n).data, c.isDigit = true) ∧
      radixValue 10 (toString n).data = n := by
  obtain ⟨pre, e, hne, hdig, hval⟩ := toDigitsCore_spec (n + 1) n [] (by omega)
  have hd : (toString n).data = pre := by
    show (Nat.repr n).data = pre
    simp [Nat.repr, Nat.toDigits, e, List.asString]
  rw [hd]; exact ⟨hne, hdig, hval⟩

theorem no_colon_of_digits (ds : List Char) (h : ∀ c ∈ ds, c.isDigit = true) : ':' ∉ ds :=
  fun hc => absurd (h ':' hc) (by decide)

/-! ## Canonical numerals of integers -/

/-- The decimal numeral of an integer of magnitude at most `2 ^ 53` is non-empty, holds
no colon, and converts to that integer. -/
theorem int_numeral_spec (n : Int) (hn : |n| ≤ 2 ^ 53) :
    (toString n).data ≠ [] ∧ ':' ∉ (toString n).data ∧
      stringToNumber (toString n) = .fin (n : ℚ) := by
  cases n with
  | ofNat m =>
    obtain ⟨hne, hdig, hval⟩ := toString_nat_spec m
    have e : toString (Int.ofNat m) = toString m := rfl
    rw [e]
    refine ⟨hne, no_colon_of_digits _ hdig, ?_⟩
    rw [stringToNumber_digits _ hne hdig, hval]
    exact roundDouble_int (Int.ofNat m) hn
  | negSucc m =>
    obtain ⟨hne, hdig, hval⟩ := toString_nat_spec (m + 1)
    have e : (toString (Int.negSucc m)).data = '-' :: (toString (m + 1)).data := rfl
    have hw : ∀ c ∈ '-' :: (toString (m + 1)).data, isStrWhiteSpace c = false := by
      intro c hc
      rcases List.mem_cons.1 hc with h | h
      · rw [h]; decide
      · exact not_whiteSpace_of_isDigit c (hdig c h)
    have htrim : trim ('-' :: (toString (m + 1)).data) = '-' :: (toString (m + 1)).data := by
      unfold trim
      rw [dropWhile_eq_self _ hw, dropWhile_eq_self _ (fun c hc => hw c (List.mem_reverse.1 hc))]
      simp
    have hm : |((m + 1 : Nat) : Int)| ≤ 2 ^ 53 := by
      have : |Int.negSucc m| = ((m + 1 : Nat) : Int) := by
        rw [Int.negSucc_eq, abs_neg]; exact abs_of_nonneg (by omega)
      rw [this] at hn
      rw [abs_of_nonneg (by omega)]; exact hn
    have hsd : signedDecimal ('-' :: (toString (m + 1)).data) = .fin ((Int.negSucc m : Int) : ℚ) := by
      unfold signedDecimal
      split
      · rename_i h; exact absurd (List.cons.inj h).1 (by decide)
      · rename_i cs h
        rw [← (List.cons.inj h).2, unsignedDecimal_digits _ hne hdig, hval]
        have := roundDouble_int ((m + 1 : Nat) : Int) hm
        rw [Int.cast_natCast] at this
        rw [this, JSNumber.neg, Int.cast_negSucc]
      · rename_i h1 h2; exact absurd rfl (h2 _)
    refine ⟨by rw [e]; simp, ?_, ?_⟩
    · rw [e]; intro hc
      rcases List.mem_cons.1 hc with h | h
      · exact absurd h (by decide)
      · exact no_colon_of_digits _ hdig h
    · unfold stringToNumber
      rw [e, htrim]
      split
      · rename_i h; exact absurd h (by simp)
      · rename_i h; exact absurd (List.cons.inj h).1 (by decide)
      · exact hsd

/-! ## Number to text -/

theorem toText_int (z : Int) (hz : |z| ≤ 2 ^ 53) :
    (JSNumber.fin (z : ℚ)).toText = some (toString z) := by
  have h : z.natAbs ≤ 2 ^ 53 := by
    have : (z.natAbs : Int) ≤ 2 ^ 53 := by rw [Int.natCast_natAbs]; exact hz
    exact_mod_cast this
  show (if ((z : ℚ)).den = 1 ∧ ((z : ℚ)).num.natAbs ≤ 2 ^ 53 then _ else _) = _
  rw [if_pos ⟨Rat.intCast_den z, by rw [Rat.intCast_num]; exact h⟩, Rat.intCast_num]

theorem toText_num_int (z : Int) (hz : |z| ≤ 2 ^ 53) :
    (Child.num (.fin (z : ℚ))).toText = some (toString z) := toText_int z hz

theorem sub_int (a b : Int) (h : |a - b| ≤ 2 ^ 53) :
    (JSNumber.fin (a : ℚ)).sub (.ofInt b) = .fin ((a - b : Int) : ℚ) := by
  simp only [JSNumber.sub, JSNumber.ofInt]
  rw [← Int.cast_sub]
  exact roundDouble_int _ h

theorem add_int (a b : Int) (h : |a + b| ≤ 2 ^ 53) :
    (JSNumber.fin (a : ℚ)).add (.ofInt b) = .fin ((a + b : Int) : ℚ) := by
  simp only [JSNumber.add, JSNumber.ofInt]
  rw [← Int.cast_add]
  exact roundDouble_int _ h

theorem toText_text (s : String) : (Child.text s).toText = some s := rfl

theorem text_four (a b c d : String) (l : NumberResultsShown)
    (x y : Child) (hx : x.toText = some b) (hy : y.toText = some d)
    (hl : l.children = [.text a, x, .text c, y]) : l.text = some (a ++ b ++ c ++ d) := by
  simp [NumberResultsShown.text, hl, toText_text, hx, hy]

/-! ## `getPageNumber` and `render` on a cursor with two fields -/

theorem data_cursor (pre d : String) : (pre ++ ":" ++ d).data = pre.data ++ ':' :: d.data := by
  simp [String.data_append]

/-- The label `getPageNumber` builds from the second field `d` of `next`, in terms of the
number `x` that `d` converts to. -/
theorem getPageNumber_second_field {α : Type} (p : Props α) (pre d : String) (x : JSNumber)
    (hpre : ':' ∉ pre.data) (hd : ':' ∉ d.data) (hnum : stringToNumber d = x)
    (hnext : p.next = .str (pre ++ ":" ++ d)) (hdl : p.dataLength ≠ 0) :
    getPageNumber p = .ok ⟨[p.dataLength], ⟨[.text "Results ",
      .num ((x.sub (.ofInt p.pageLimit)).add (.ofInt 1)), .text " - ",
      if p.dataLength < p.pageLimit then
        .num (((x.sub (.ofInt p.pageLimit)).add (.ofInt 1)).add (.ofInt p.dataLength))
      else .val (.str d)]⟩⟩ := by
  unfold getPageNumber
  rw [hnext]
  simp only [index_split_two pre d hpre hd, Field.toNumber, hnum, if_pos hdl]

/-- The same label when `d` converts to the integer `n` and the subtraction and the
addition of line 24 stay within `2 ^ 53`. -/
theorem getPageNumber_int {α : Type} (p : Props α) (pre d : String) (n : Int)
    (hpre : ':' ∉ pre.data) (hd : ':' ∉ d.data) (hnum : stringToNumber d = .fin (n : ℚ))
    (hnext : p.next = .str (pre ++ ":" ++ d)) (hdl : p.dataLength ≠ 0)
    (h1 : |n - p.pageLimit| ≤ 2 ^ 53) (h2 : |n - p.pageLimit + 1| ≤ 2 ^ 53) :
    getPageNumber p = .ok ⟨[p.dataLength], ⟨[.text "Results ",
      .num (.fin ((n - p.pageLimit + 1 : Int) : ℚ)), .text " - ",
      if p.dataLength < p.pageLimit then
        .num ((JSNumber.fin ((n - p.pageLimit + 1 : Int) : ℚ)).add (.ofInt p.dataLength))
      else .val (.str d)]⟩⟩ := by
  rw [getPageNumber_second_field p pre d _ hpre hd hnum hnext hdl, sub_int _ _ h1,
    add_int _ _ h2]

/-- When `next` is a non-empty string, `render` shows what `getPageNumber` returned. -/
theorem render_of_label {α : Type} (p : Props α) (s : String) (l : Traced NumberResultsShown)
    (hnext : p.next = .str s) (hs : s.data ≠ []) (hl : getPageNumber p = .ok l) :
    render p = .ok ⟨l.console, ⟨paginationButtons p, .element l.value⟩⟩ := by
  have ht : p.next.truthy = true := by
    rw [hnext]; cases h : s.data with
    | nil => exact absurd h hs
    | cons c t => simp [Cursor.truthy, h]
  simp [render, ht, hl]

theorem roundDouble_2p53_add_two :
    roundDouble 9007199254740994 = .fin 9007199254740994 := by
  have hu : ulp 9007199254740994 = 2 :=
    (ulp_of_binade 9007199254740994 53 (by norm_num) (by norm_num [abs_of_pos])
      (by norm_num [abs_of_pos])).trans (by norm_num)
  refine roundDouble_of_grid _ 4503599627370497 ?_ (by norm_num [abs_of_pos])
  rw [hu]; norm_num

/-! ## The range label -/

/-- C1, as stated, fails: for `next = "c:9007199254740993"` (the numeral of `2 ^ 53 + 1`),
`pageLimit = 1` and `dataLength = 1` the offset converts to the double `2 ^ 53`, and the
label reads `Results 9007199254740992 - 9007199254740993`, where the claim gives
`from = n - pageLimit + 1 = 9007199254740993`. -/
theorem full_page_label_counterexample :
    "c:9007199254740993" = "c" ++ ":" ++ toString 9007199254740993 ∧
    getPageNumber (⟨(), (), .undefined, .str "c:9007199254740993", 1, 1⟩ : Props Unit)
      = .ok ⟨[1], ⟨[.text "Results ", .num (.fin 9007199254740992), .text " - ",
          .val (.str "9007199254740993")]⟩⟩ ∧
    (NumberResultsShown.mk [.text "Results ", .num (.fin 9007199254740992), .text " - ",
        .val (.str "9007199254740993")]).text
      = some "Results 9007199254740992 - 9007199254740993" ∧
    (NumberResultsShown.mk [.text "Results ", .num (.fin 9007199254740992), .text " - ",
        .val (.str "9007199254740993")]).text
      ≠ some ("Results " ++ toString ((9007199254740993 : Int) - 1 + 1) ++ " - "
          ++ toString 9007199254740993) := by
  have hv : radixValue 10 "9007199254740993".data = 9007199254740993 := by decide
  have hnum : stringToNumber "9007199254740993" = .fin 9007199254740992 := by
    rw [stringToNumber_digits _ (by decide) (by decide), hv]
    exact (congrArg roundDouble (by norm_num)).trans roundDouble_2p53_add_one
  have hg := getPageNumber_second_field
    (⟨(), (), .undefined, .str "c:9007199254740993", 1, 1⟩ : Props Unit)
    "c" "9007199254740993" _ (by decide) (by decide) hnum (by decide) (by decide)
  have e1 : (JSNumber.fin 9007199254740992).sub (.ofInt 1) = .fin 9007199254740991 :=
    (sub_int 9007199254740992 1 (by norm_num)).trans (by norm_num)
  have e2 : (JSNumber.fin 9007199254740991).add (.ofInt 1) = .fin 9007199254740992 :=
    (add_int 9007199254740991 1 (by norm_num)).trans (by norm_num)
  have ht : (NumberResultsShown.mk [.text "Results ", .num (.fin 9007199254740992),
      .text " - ", .val (.str "9007199254740993")]).text
      = some "Results 9007199254740992 - 9007199254740993" :=
    text_four "Results " "9007199254740992" " - " "9007199254740993" _
      (.num (.fin 9007199254740992)) (.val (.str "9007199254740993"))
      ((congrArg Child.toText (by norm_num)).trans
        (toText_num_int 9007199254740992 (by norm_num))) rfl rfl
  refine ⟨by decide, ?_, ht, ?_⟩
  · rw [hg]
    simp only [e1, e2]
    rfl
  · rw [ht]; decide

/-- C1, amended: with a well-formed cursor `pre:d`, where `pre` has no colon and `d` is
the canonical decimal numeral of `n`, and a non-zero `dataLength` that is at least
`pageLimit`, whenever `n`, `pageLimit`, `dataLength`, `n - pageLimit` and
`n - pageLimit + 1` are at most `2 ^ 53` in magnitude, the label that `getPageNumber` returns and `render` shows reads
`Results {n - pageLimit + 1} - {n}`. -/
theorem full_page_label {α : Type} (p : Props α) (pre : String) (n : Nat)
    (hpre : ':' ∉ pre.data) (hnext : p.next = .str (pre ++ ":" ++ toString n))
    (hdl : p.dataLength ≠ 0) (hge : p.pageLimit ≤ p.dataLength)
    (hn : (n : Int) ≤ 2 ^ 53) (bpl : |p.pageLimit| ≤ 2 ^ 53) (bdl : |p.dataLength| ≤ 2 ^ 53)
    (h1 : |(n : Int) - p.pageLimit| ≤ 2 ^ 53) (h2 : |(n : Int) - p.pageLimit + 1| ≤ 2 ^ 53) :
    ∃ l : NumberResultsShown,
      getPageNumber p = .ok ⟨[p.dataLength], l⟩ ∧
      render p = .ok ⟨[p.dataLength], ⟨paginationButtons p, .element l⟩⟩ ∧
      l.text = some ("Results " ++ toString ((n : Int) - p.pageLimit + 1) ++ " - " ++ toString n) := by
  have e : toString ((n : Nat) : Int) = toString n := rfl
  obtain ⟨-, hcol, hnum⟩ := int_numeral_spec (n : Int) (by rw [abs_of_nonneg (by omega)]; exact hn)
  rw [e] at hcol hnum
  have hg := getPageNumber_int p pre (toString n) n hpre hcol hnum hnext hdl h1 h2
  rw [if_neg (not_lt.2 hge)] at hg
  refine ⟨_, hg, ?_, ?_⟩
  · exact render_of_label p _ _ hnext (by rw [data_cursor]; simp) hg
  · exact text_four _ _ _ _ _ _ (.val (.str (toString n))) (toText_num_int _ h2) rfl rfl

/-- C1, amended, at `next = "cursor:40"`, `pageLimit = 20`, `dataLength = 20`: the label
is `Results 21 - 40`. -/
theorem full_page_label_witness :
    ∃ l : NumberResultsShown,
      getPageNumber (⟨(), (), .undefined, .str "cursor:40", 20, 20⟩ : Props Unit) = .ok ⟨[20], l⟩ ∧
      render (⟨(), (), .undefined, .str "cursor:40", 20, 20⟩ : Props Unit)
        = .ok ⟨[20], ⟨paginationButtons ⟨(), (), .undefined, .str "cursor:40", 20, 20⟩,
            .element l⟩⟩ ∧
      l.text = some "Results 21 - 40" :=
  full_page_label (⟨(), (), .undefined, .str "cursor:40", 20, 20⟩ : Props Unit) "cursor" 40
    (by decide) (by decide) (by decide) (by decide)
      (by norm_num) (by norm_num) (by norm_num) (by norm_num) (by norm_num)

/-- C2, as stated, fails: for `next = "c:9007199254740994"` (the numeral of
`2 ^ 53 + 2`), `pageLimit = 3` and `dataLength = 1`, `from` is `2 ^ 53` and the sum
`from + dataLength` rounds back to `2 ^ 53`: the label reads
`Results 9007199254740992 - 9007199254740992`, where the claim gives
`to = from + dataLength = 9007199254740993`. -/
theorem short_page_label_counterexample :
    "c:9007199254740994" = "c" ++ ":" ++ toString (9007199254740994 : Int) ∧
    getPageNumber (⟨(), (), .undefined, .str "c:9007199254740994", 3, 1⟩ : Props Unit)
      = .ok ⟨[1], ⟨[.text "Results ", .num (.fin 9007199254740992), .text " - ",
          .num (.fin 9007199254740992)]⟩⟩ ∧
    (NumberResultsShown.mk [.text "Results ", .num (.fin 9007199254740992), .text " - ",
        .num (.fin 9007199254740992)]).text
      = some "Results 9007199254740992 - 9007199254740992" ∧
    (NumberResultsShown.mk [.text "Results ", .num (.fin 9007199254740992), .text " - ",
        .num (.fin 9007199254740992)]).text
      ≠ some ("Results " ++ toString ((9007199254740994 : Int) - 3 + 1) ++ " - "
          ++ toString ((9007199254740994 : Int) - 3 + 1 + 1)) := by
  have hv : radixValue 10 "9007199254740994".data = 9007199254740994 := by decide
  have hnum : stringToNumber "9007199254740994" = .fin 9007199254740994 := by
    rw [stringToNumber_digits _ (by decide) (by decide), hv]
    exact (congrArg roundDouble (by norm_num)).trans roundDouble_2p53_add_two
  have hg := getPageNumber_second_field
    (⟨(), (), .undefined, .str "c:9007199254740994", 3, 1⟩ : Props Unit)
    "c" "9007199254740994" _ (by decide) (by decide) hnum (by decide) (by decide)
  have e1 : (JSNumber.fin 9007199254740994).sub (.ofInt 3) = .fin 9007199254740991 :=
    (sub_int 9007199254740994 3 (by norm_num)).trans (by norm_num)
  have e2 : (JSNumber.fin 9007199254740991).add (.ofInt 1) = .fin 9007199254740992 :=
    (add_int 9007199254740991 1 (by norm_num)).trans (by norm_num)
  have e3 : (JSNumber.fin 9007199254740992).add (.ofInt 1) = .fin 9007199254740992 := by
    simp only [JSNumber.add, JSNumber.ofInt]
    exact (congrArg roundDouble (by norm_num)).trans roundDouble_2p53_add_one
  have hx : (Child.num (.fin 9007199254740992)).toText = some "9007199254740992" :=
    (congrArg Child.toText (by norm_num)).trans (toText_num_int 9007199254740992 (by norm_num))
  have ht : (NumberResultsShown.mk [.text "Results ", .num (.fin 9007199254740992),
      .text " - ", .num (.fin 9007199254740992)]).text
      = some "Results 9007199254740992 - 9007199254740992" :=
    text_four "Results " "9007199254740992" " - " "9007199254740992" _
      (.num (.fin 9007199254740992)) (.num (.fin 9007199254740992)) hx hx rfl
  refine ⟨by decide, ?_, ht, ?_⟩
  · rw [hg]
    simp only [e1, e2, e3]
    rfl
  · rw [ht]; decide

/-- C2, amended: with a well-formed cursor whose offset is the integer `n` and
`0 < dataLength < pageLimit`, whenever `n`, `pageLimit`, `dataLength`, `n - pageLimit`
and `n - pageLimit + 1` are at most `2 ^ 53` in magnitude, the label reads `Results {from} - {to}` with
`from = n - pageLimit + 1` and `to = from + dataLength`, so that
`to - from + 1 = dataLength + 1`. -/
theorem short_page_label {α : Type} (p : Props α) (pre : String) (n : Int)
    (hpre : ':' ∉ pre.data) (hnext : p.next = .str (pre ++ ":" ++ toString n))
    (hpos : 0 < p.dataLength) (hlt : p.dataLength < p.pageLimit)
    (hn : |n| ≤ 2 ^ 53) (bpl : |p.pageLimit| ≤ 2 ^ 53) (bdl : |p.dataLength| ≤ 2 ^ 53)
    (h1 : |n - p.pageLimit| ≤ 2 ^ 53) (h2 : |n - p.pageLimit + 1| ≤ 2 ^ 53) :
    ∃ (l : NumberResultsShown) (from_ to_ : Int),
      from_ = n - p.pageLimit + 1 ∧ to_ = from_ + p.dataLength ∧
      to_ - from_ + 1 = p.dataLength + 1 ∧
      getPageNumber p = .ok ⟨[p.dataLength], l⟩ ∧
      render p = .ok ⟨[p.dataLength], ⟨paginationButtons p, .element l⟩⟩ ∧
      l.children = [.text "Results ", .num (.fin from_), .text " - ", .num (.fin to_)] ∧
      l.text = some ("Results " ++ toString from_ ++ " - " ++ toString to_) := by
  obtain ⟨-, hcol, hnum⟩ := int_numeral_spec n hn
  have h3 : |n - p.pageLimit + 1 + p.dataLength| ≤ 2 ^ 53 := by
    rw [abs_le] at hn h2 ⊢
    constructor <;> omega
  have hg := getPageNumber_int p pre (toString n) n hpre hcol hnum hnext (ne_of_gt hpos) h1 h2
  rw [if_pos hlt, add_int _ _ h3] at hg
  refine ⟨_, _, _, rfl, rfl, by ring, hg, ?_, rfl, ?_⟩
  · exact render_of_label p _ _ hnext (by rw [data_cursor]; simp) hg
  · exact text_four _ _ _ _ _ _ _ (toText_num_int _ h2) (toText_num_int _ h3) rfl

/-- C2, amended, at `next = "cursor:15"`, `pageLimit = 20`, `dataLength = 5`: the label
is `Results -4 - 1`. -/
theorem short_page_label_witness :
    ∃ (l : NumberResultsShown) (from_ to_ : Int),
      from_ = -4 ∧ to_ = 1 ∧
      getPageNumber (⟨(), (), .undefined, .str "cursor:15", 20, 5⟩ : Props Unit) = .ok ⟨[5], l⟩ ∧
      l.children = [.text "Results ", .num (.fin from_), .text " - ", .num (.fin to_)] ∧
      l.text = some "Results -4 - 1" := by
  obtain ⟨l, f, t, hf, ht, -, hg, -, hc, hx⟩ :=
    short_page_label (⟨(), (), .undefined, .str "cursor:15", 20, 5⟩ : Props Unit) "cursor" 15
      (by decide) (by decide) (by decide) (by decide)
      (by norm_num) (by norm_num) (by norm_num) (by norm_num) (by norm_num)
  have hf2 : f = -4 := by rw [hf]; decide
  have ht2 : t = 1 := by rw [ht, hf2]; decide
  subst hf2 ht2
  exact ⟨l, _, _, rfl, rfl, hg, hc, hx⟩

/-- C3: when `next` is a non-empty string and `dataLength` is zero, the label is the
literal `0 Results`, whatever `next`, `pageLimit` and `previous` are. -/
theorem zero_results_label {α : Type} (p : Props α) (s : String)
    (hnext : p.next = .str s) (hs : s ≠ "") (hdl : p.dataLength = 0) :
    getPageNumber p = .ok ⟨[0], ⟨[.text "0 Results"]⟩⟩ ∧
    render p = .ok ⟨[0], ⟨paginationButtons p, .element ⟨[.text "0 Results"]⟩⟩⟩ ∧
    (NumberResultsShown.mk [.text "0 Results"]).text = some "0 Results" := by
  have hg : getPageNumber p = .ok ⟨[0], ⟨[.text "0 Results"]⟩⟩ := by
    simp [getPageNumber, hnext, hdl]
  have hs2 : s.data ≠ [] := fun h => hs (by cases s; simp_all)
  exact ⟨hg, render_of_label p s _ hnext hs2 hg, rfl⟩

/-- C3, at `next = "cursor:40"`, `pageLimit = 20`, `dataLength = 0`. -/
theorem zero_results_label_witness :
    getPageNumber (⟨(), (), .null, .str "cursor:40", 20, 0⟩ : Props Unit)
      = .ok ⟨[0], ⟨[.text "0 Results"]⟩⟩ ∧
    render (⟨(), (), .null, .str "cursor:40", 20, 0⟩ : Props Unit)
      = .ok ⟨[0], ⟨paginationButtons ⟨(), (), .null, .str "cursor:40", 20, 0⟩,
          .element ⟨[.text "0 Results"]⟩⟩⟩ ∧
    (NumberResultsShown.mk [.text "0 Results"]).text = some "0 Results" :=
  zero_results_label (⟨(), (), .null, .str "cursor:40", 20, 0⟩ : Props Unit) "cursor:40"
    rfl (by decide) rfl

/-! ## The buttons and the label slot -/

theorem truthy_false_iff (c : Cursor) :
    c.truthy = false ↔ (c = .undefined ∨ c = .null ∨ c = .str "") := by
  cases c with
  | undefined => simp [Cursor.truthy]
  | null => simp [Cursor.truthy]
  | str s =>
    have e : s.data = [] ↔ s = "" := by
      constructor
      · intro h; cases s; simp_all
      · intro h; rw [h]
    simp [Cursor.truthy, e]

theorem getPageNumber_str {α : Type} (p : Props α) (s : String) (hnext : p.next = .str s) :
    ∃ l : NumberResultsShown, getPageNumber p = .ok ⟨[p.dataLength], l⟩ := by
  unfold getPageNumber
  rw [hnext]
  by_cases h : p.dataLength ≠ 0
  · simp only [if_pos h]; exact ⟨_, rfl⟩
  · simp only [if_neg h]; exact ⟨_, rfl⟩

/-- The method `render` never throws: it returns the two buttons, and either the label
of `getPageNumber` (truthy `next`) or the falsy `next` itself. -/
theorem render_total {α : Type} (p : Props α) :
    ∃ t : Traced (Fragment α), render p = .ok t ∧ t.value.buttons = paginationButtons p ∧
      ((p.next.truthy = true ∧
          ∃ l, getPageNumber p = .ok ⟨[p.dataLength], l⟩ ∧ t.value.slot = .element l) ∨
        (p.next.truthy = false ∧ t.value.slot = .value p.next)) := by
  cases ht : p.next.truthy with
  | false =>
    exact ⟨⟨[], ⟨paginationButtons p, .value p.next⟩⟩, by simp [render, ht], rfl,
      Or.inr ⟨rfl, rfl⟩⟩
  | true =>
    cases hn : p.next with
    | undefined => simp [hn, Cursor.truthy] at ht
    | null => simp [hn, Cursor.truthy] at ht
    | str s =>
      obtain ⟨l, hl⟩ := getPageNumber_str p s hn
      exact ⟨⟨[p.dataLength], ⟨paginationButtons p, .element l⟩⟩, by simp [render, ht, hl], rfl,
        Or.inl ⟨rfl, l, hl, rfl⟩⟩


/-- C4: the tree returned by `render` holds a range label exactly when `next` is truthy
(a non-empty string), and its second button is disabled exactly when `next` is falsy
(`undefined`, `null` or the empty string). -/
theorem label_iff_next {α : Type} (p : Props α) :
    ∃ (t : Traced (Fragment α)) (previousButton nextButton : Button α),
      render p = .ok t ∧ t.value.buttons.children = [previousButton, nextButton] ∧
      ((∃ l, t.value.slot = .element l) ↔ p.next.truthy = true) ∧
      ((∃ l, t.value.slot = .element l) ↔ ∃ s, p.next = .str s ∧ s ≠ "") ∧
      (nextButton.disabled = true ↔ p.next.truthy = false) ∧
      (nextButton.disabled = true ↔
        (p.next = .undefined ∨ p.next = .null ∨ p.next = .str "")) ∧
      nextButton.icon = "icon-chevron-right" := by
  obtain ⟨t, ht, hb, hs⟩ := render_total p
  have hlab : (∃ l, t.value.slot = .element l) ↔ p.next.truthy = true := by
    rcases hs with ⟨h1, l, -, h2⟩ | ⟨h1, h2⟩
    · simp [h1, h2]
    · simp [h1, h2]
  have hstr : p.next.truthy = true ↔ ∃ s, p.next = .str s ∧ s ≠ "" := by
    have := truthy_false_iff p.next
    cases hn : p.next with
    | undefined => simp [Cursor.truthy]
    | null => simp [Cursor.truthy]
    | str s =>
      rw [hn] at this
      simp only [Cursor.str.injEq, exists_eq_left', ne_eq]
      rw [← Bool.not_eq_false, this]; simp
  refine ⟨t, _, _, ht, by rw [hb]; rfl, hlab, hlab.trans hstr, ?_, ?_, rfl⟩
  · simp
  · rw [← truthy_false_iff]; simp

/-- C5: the first button returned by `render` is disabled exactly when `previous` is
falsy (`undefined`, `null` or the empty string); its flag is `!previous`, a function of
`previous` alone. -/
theorem previous_disabled_iff {α : Type} (p : Props α) :
    ∃ (t : Traced (Fragment α)) (previousButton nextButton : Button α),
      render p = .ok t ∧ t.value.buttons.children = [previousButton, nextButton] ∧
      previousButton.icon = "icon-chevron-left" ∧
      previousButton.disabled = !p.previous.truthy ∧
      (previousButton.disabled = true ↔
        (p.previous = .undefined ∨ p.previous = .null ∨ p.previous = .str "")) ∧
      (previousButton.disabled = false ↔ ∃ s, p.previous = .str s ∧ s ≠ "") := by
  obtain ⟨t, ht, hb, -⟩ := render_total p
  refine ⟨t, _, _, ht, by rw [hb]; rfl, rfl, rfl, ?_, ?_⟩
  · rw [← truthy_false_iff]; simp
  · have := truthy_false_iff p.previous
    cases hn : p.previous with
    | undefined => simp [Cursor.truthy]
    | null => simp [Cursor.truthy]
    | str s =>
      rw [hn] at this
      simp only [Cursor.str.injEq, exists_eq_left', ne_eq, Bool.not_eq_false']
      rw [← Bool.not_eq_false, this]; simp

/-- C6: the first button (`icon-chevron-left`) carries the caller's `getPreviousPage`
and the second (`icon-chevron-right`) the caller's `getNextPage`, as they are; one click
on the enabled second button makes exactly one call, of `getNextPage` with no
arguments, one click on the enabled first button makes exactly one call, of
`getPreviousPage` with no arguments, and a click on a disabled button makes no call. -/
theorem handlers_wired {α : Type} (p : Props α) :
    ∃ (t : Traced (Fragment α)) (previousButton nextButton : Button α),
      render p = .ok t ∧ t.value.buttons.children = [previousButton, nextButton] ∧
      previousButton.icon = "icon-chevron-left" ∧
      previousButton.onClick = p.getPreviousPage ∧
      nextButton.icon = "icon-chevron-right" ∧
      nextButton.onClick = p.getNextPage ∧
      previousButton.click
        = (if p.previous.truthy then [{ callee := p.getPreviousPage, args := [] }] else []) ∧
      nextButton.click
        = (if p.next.truthy then [{ callee := p.getNextPage, args := [] }] else []) := by
  obtain ⟨t, ht, hb, -⟩ := render_total p
  refine ⟨t, _, _, ht, by rw [hb]; rfl, rfl, rfl, rfl, rfl, ?_, ?_⟩
  · cases h : p.previous.truthy <;> simp [Button.click, h]
  · cases h : p.next.truthy <;> simp [Button.click, h]

/-- C7: when `next` is a non-empty string without a colon and `dataLength` is not zero,
`getPageNumber` returns a `Results {from} - {to}` label whose `from` is `NaN`, for
every `pageLimit`; nothing is thrown. -/
theorem no_colon_label {α : Type} (p : Props α) (s : String)
    (hnext : p.next = .str s) (hs : s ≠ "") (hc : ':' ∉ s.data) (hdl : p.dataLength ≠ 0) :
    ∃ (l : NumberResultsShown) (to_ : Child),
      getPageNumber p = .ok ⟨[p.dataLength], l⟩ ∧
      render p = .ok ⟨[p.dataLength], ⟨paginationButtons p, .element l⟩⟩ ∧
      l.children = [.text "Results ", .num .nan, .text " - ", to_] ∧
      to_ = (if p.dataLength < p.pageLimit then .num .nan else .val .undefined) ∧
      l.text = some (if p.dataLength < p.pageLimit then "Results NaN - NaN"
        else "Results NaN - ") := by
  have hs2 : s.data ≠ [] := fun h => hs (by cases s; simp_all)
  have hg : getPageNumber p = .ok ⟨[p.dataLength], ⟨[.text "Results ", .num .nan, .text " - ",
      if p.dataLength < p.pageLimit then .num .nan else .val .undefined]⟩⟩ := by
    unfold getPageNumber
    rw [hnext]
    simp only [index_split_no_colon s hc, Field.toNumber, JSNumber.sub, JSNumber.add, if_pos hdl]
  refine ⟨_, _, hg, render_of_label p s _ hnext hs2 hg, rfl, rfl, ?_⟩
  by_cases h : p.dataLength < p.pageLimit
  · simp only [if_pos h]; rfl
  · simp only [if_neg h]; rfl

/-- C7, at `next = "cursor"`, `pageLimit = 20`, `dataLength = 20`. -/
theorem no_colon_label_witness :
    ∃ (l : NumberResultsShown),
      getPageNumber (⟨(), (), .undefined, .str "cursor", 20, 20⟩ : Props Unit) = .ok ⟨[20], l⟩ ∧
      l.children = [.text "Results ", .num .nan, .text " - ", .val .undefined] ∧
      l.text = some "Results NaN - " := by
  obtain ⟨l, t, hg, -, hc, ht, hx⟩ :=
    no_colon_label (⟨(), (), .undefined, .str "cursor", 20, 20⟩ : Props Unit) "cursor"
      rfl (by decide) (by decide) (by decide)
  subst ht
  exact ⟨l, hg, hc, hx⟩

/-! ## Which part of the cursor is the offset -/

/-- C8, as stated, fails twice.  For `next = "a:b:40"` (the text before the last colon
is `a:b`, the numeral after it is `40`), `pageLimit = 20` and `dataLength = 20`, the
value taken for `endRange` is the second field `b`, and the label reads
`Results NaN - b`, not `Results 21 - 40`.  And for `next = "a:9007199254740993"` the
second field converts to the double `9007199254740992`, not to the integer it denotes. -/
theorem colon_in_head_counterexample :
    "a:b:40" = "a:b" ++ ":" ++ toString 40 ∧
    index (split "a:b:40") 1 = .str "b" ∧
    getPageNumber (⟨(), (), .undefined, .str "a:b:40", 20, 20⟩ : Props Unit)
      = .ok ⟨[20], ⟨[.text "Results ", .num .nan, .text " - ", .val (.str "b")]⟩⟩ ∧
    (NumberResultsShown.mk [.text "Results ", .num .nan, .text " - ", .val (.str "b")]).text
      = some "Results NaN - b" ∧
    (NumberResultsShown.mk [.text "Results ", .num .nan, .text " - ", .val (.str "b")]).text
      ≠ some "Results 21 - 40" ∧
    "a:9007199254740993" = "a" ++ ":" ++ toString 9007199254740993 ∧
    (index (split "a:9007199254740993") 1).toNumber = .fin 9007199254740992 ∧
    JSNumber.fin 9007199254740992 ≠ .fin 9007199254740993 := by
  have h1 : index (split "a:b:40") 1 = .str "b" := by decide
  have h2 : stringToNumber "b" = .nan := by decide
  have hv : radixValue 10 "9007199254740993".data = 9007199254740993 := by decide
  have h3 : index (split "a:9007199254740993") 1 = .str "9007199254740993" := by decide
  refine ⟨by decide, h1, ?_, by decide, by decide, by decide, ?_, ?_⟩
  · simp only [getPageNumber, h1, Field.toNumber, h2, JSNumber.sub, JSNumber.add]
    rfl
  · rw [h3, Field.toNumber, stringToNumber_digits _ (by decide) (by decide), hv]
    exact (congrArg roundDouble (by norm_num)).trans roundDouble_2p53_add_one
  · intro h
    have := JSNumber.fin.inj h
    norm_num at this

/-- C8, amended: when the text before the first colon holds no colon and the text after
it is the decimal numeral of an integer `n` of magnitude at most `2 ^ 53`, the value
`getPageNumber` takes for `endRange` is that numeral (the second colon-separated field
of `next`) and it converts to `n`; when `pageLimit`, `dataLength`, `n - pageLimit` and
`n - pageLimit + 1` are within `2 ^ 53` as well, the `from` of the label is `n - pageLimit + 1`, its `to` is
`from + dataLength` below the page limit and the numeral itself otherwise, and the
full-page label reads `Results {n - pageLimit + 1} - {n}`. -/
theorem endRange_is_second_field {α : Type} (p : Props α) (pre : String) (n : Int)
    (hpre : ':' ∉ pre.data) (hnext : p.next = .str (pre ++ ":" ++ toString n))
    (hdl : p.dataLength ≠ 0) (hn : |n| ≤ 2 ^ 53) (bpl : |p.pageLimit| ≤ 2 ^ 53)
    (bdl : |p.dataLength| ≤ 2 ^ 53) (h1 : |n - p.pageLimit| ≤ 2 ^ 53)
    (h2 : |n - p.pageLimit + 1| ≤ 2 ^ 53) :
    index (split (pre ++ ":" ++ toString n)) 1 = .str (toString n) ∧
    (index (split (pre ++ ":" ++ toString n)) 1).toNumber = .fin (n : ℚ) ∧
    ∃ l : NumberResultsShown,
      getPageNumber p = .ok ⟨[p.dataLength], l⟩ ∧
      l.children = [.text "Results ", .num (.fin ((n - p.pageLimit + 1 : Int) : ℚ)),
        .text " - ",
        if p.dataLength < p.pageLimit then
          .num ((JSNumber.fin ((n - p.pageLimit + 1 : Int) : ℚ)).add (.ofInt p.dataLength))
        else .val (.str (toString n))] ∧
      (p.pageLimit ≤ p.dataLength →
        l.text = some ("Results " ++ toString (n - p.pageLimit + 1) ++ " - " ++ toString n)) := by
  obtain ⟨-, hcol, hnum⟩ := int_numeral_spec n hn
  have hi := index_split_two pre (toString n) hpre hcol
  have hg := getPageNumber_int p pre (toString n) n hpre hcol hnum hnext hdl h1 h2
  refine ⟨hi, by rw [hi, Field.toNumber, hnum], _, hg, rfl, ?_⟩
  intro hge
  exact text_four _ _ _ _ _ _ (.val (.str (toString n))) (toText_num_int _ h2) rfl
    (by simp only [if_neg (not_lt.2 hge)])

/-- C8, amended, at `next = "a:40"`, `pageLimit = 20`, `dataLength = 20`: `endRange` is
`40` and the label is `Results 21 - 40`. -/
theorem endRange_is_second_field_witness :
    index (split "a:40") 1 = .str "40" ∧
    (index (split "a:40") 1).toNumber = .fin 40 ∧
    ∃ l : NumberResultsShown,
      getPageNumber (⟨(), (), .undefined, .str "a:40", 20, 20⟩ : Props Unit) = .ok ⟨[20], l⟩ ∧
      l.children = [.text "Results ", .num (.fin 21), .text " - ", .val (.str "40")] ∧
      l.text = some "Results 21 - 40" := by
  obtain ⟨h1, h2, l, h3, h4, h5⟩ :=
    endRange_is_second_field (⟨(), (), .undefined, .str "a:40", 20, 20⟩ : Props Unit) "a" 40
      (by decide) (by decide) (by decide)
      (by norm_num) (by norm_num) (by norm_num) (by norm_num) (by norm_num)
  exact ⟨h1, h2.trans (by norm_num), l, h3, h4.trans (by norm_num; rfl), h5 (by decide)⟩

/-- C9, evaluated at `next = "cursor:040"`, `pageLimit = 20`: with `dataLength = 20` the
`to` child is the string `040` as it stands in the cursor, and the label reads
`Results 21 - 040`, while `from` and, with `dataLength = 19`, `to` are the numbers
`21` and `40`. -/
theorem leading_zero_label :
    getPageNumber (⟨(), (), .undefined, .str "cursor:040", 20, 20⟩ : Props Unit)
      = .ok ⟨[20], ⟨[.text "Results ", .num (.fin 21), .text " - ", .val (.str "040")]⟩⟩ ∧
    (NumberResultsShown.mk [.text "Results ", .num (.fin 21), .text " - ", .val (.str "040")]).text
      = some "Results 21 - 040" ∧
    getPageNumber (⟨(), (), .undefined, .str "cursor:040", 20, 19⟩ : Props Unit)
      = .ok ⟨[19], ⟨[.text "Results ", .num (.fin 21), .text " - ", .num (.fin 40)]⟩⟩ ∧
    (NumberResultsShown.mk [.text "Results ", .num (.fin 21), .text " - ", .num (.fin 40)]).text
      = some "Results 21 - 40" := by
  have hv : radixValue 10 "040".data = 40 := by decide
  have hnum : stringToNumber "040" = .fin ((40 : Int) : ℚ) := by
    rw [stringToNumber_digits _ (by decide) (by decide), hv]
    exact roundDouble_int 40 (by norm_num)
  have h20 := getPageNumber_int (⟨(), (), .undefined, .str "cursor:040", 20, 20⟩ : Props Unit)
    "cursor" "040" 40 (by decide) (by decide) hnum (by decide) (by decide)
    (by norm_num) (by norm_num)
  have h19 := getPageNumber_int (⟨(), (), .undefined, .str "cursor:040", 20, 19⟩ : Props Unit)
    "cursor" "040" 40 (by decide) (by decide) hnum (by decide) (by decide)
    (by norm_num) (by norm_num)
  have e3 : (JSNumber.fin 21).add (.ofInt 19) = .fin 40 :=
    ((congrArg (fun x => JSNumber.add (.fin x) (.ofInt 19)) (by norm_num)).trans
      (add_int 21 19 (by norm_num))).trans (by norm_num)
  have x21 : (Child.num (.fin 21)).toText = some "21" :=
    (congrArg Child.toText (by norm_num)).trans (toText_num_int 21 (by norm_num))
  have x40 : (Child.num (.fin 40)).toText = some "40" :=
    (congrArg Child.toText (by norm_num)).trans (toText_num_int 40 (by norm_num))
  refine ⟨h20.trans (by norm_num), ?_, h19.trans ?_, ?_⟩
  · exact text_four "Results " "21" " - " "040" _ (.num (.fin 21)) (.val (.str "040")) x21 rfl rfl
  · norm_num
    exact e3
  · exact text_four "Results " "21" " - " "40" _ (.num (.fin 21)) (.num (.fin 40)) x21 x40 rfl

/-! ## The range stays within the cursor -/

/-- C10, as stated, fails: for `next = "c:9007199254740994"` (the numeral of
`2 ^ 53 + 2`) and `pageLimit = 2`, the label for `dataLength = 1` reads
`Results 9007199254740992 - 9007199254740992` and the label for `dataLength = 2` reads
`Results 9007199254740992 - 9007199254740994`: the two differ, and `from` is not
`n - pageLimit + 1 = 9007199254740993`. -/
theorem range_within_cursor_counterexample :
    "c:9007199254740994" = "c" ++ ":" ++ toString (9007199254740994 : Int) ∧
    getPageNumber (⟨(), (), .undefined, .str "c:9007199254740994", 2, 1⟩ : Props Unit)
      = .ok ⟨[1], ⟨[.text "Results ", .num (.fin 9007199254740992), .text " - ",
          .num (.fin 9007199254740992)]⟩⟩ ∧
    getPageNumber (⟨(), (), .undefined, .str "c:9007199254740994", 2, 2⟩ : Props Unit)
      = .ok ⟨[2], ⟨[.text "Results ", .num (.fin 9007199254740992), .text " - ",
          .val (.str "9007199254740994")]⟩⟩ ∧
    (NumberResultsShown.mk [.text "Results ", .num (.fin 9007199254740992), .text " - ",
        .num (.fin 9007199254740992)]).text
      = some "Results 9007199254740992 - 9007199254740992" ∧
    (NumberResultsShown.mk [.text "Results ", .num (.fin 9007199254740992), .text " - ",
        .val (.str "9007199254740994")]).text
      = some "Results 9007199254740992 - 9007199254740994" ∧
    (NumberResultsShown.mk [.text "Results ", .num (.fin 9007199254740992), .text " - ",
        .num (.fin 9007199254740992)]).text
      ≠ (NumberResultsShown.mk [.text "Results ", .num (.fin 9007199254740992), .text " - ",
        .val (.str "9007199254740994")]).text ∧
    JSNumber.fin 9007199254740992 ≠ .fin (((9007199254740994 : Int) - 2 + 1 : Int) : ℚ) := by
  have hv : radixValue 10 "9007199254740994".data = 9007199254740994 := by decide
  have hnum : stringToNumber "9007199254740994" = .fin 9007199254740994 := by
    rw [stringToNumber_digits _ (by decide) (by decide), hv]
    exact (congrArg roundDouble (by norm_num)).trans roundDouble_2p53_add_two
  have g1 := getPageNumber_second_field
    (⟨(), (), .undefined, .str "c:9007199254740994", 2, 1⟩ : Props Unit)
    "c" "9007199254740994" _ (by decide) (by decide) hnum (by decide) (by decide)
  have g2 := getPageNumber_second_field
    (⟨(), (), .undefined, .str "c:9007199254740994", 2, 2⟩ : Props Unit)
    "c" "9007199254740994" _ (by decide) (by decide) hnum (by decide) (by decide)
  have e1 : (JSNumber.fin 9007199254740994).sub (.ofInt 2) = .fin 9007199254740992 :=
    (sub_int 9007199254740994 2 (by norm_num)).trans (by norm_num)
  have e2 : (JSNumber.fin 9007199254740992).add (.ofInt 1) = .fin 9007199254740992 := by
    simp only [JSNumber.add, JSNumber.ofInt]
    exact (congrArg roundDouble (by norm_num)).trans roundDouble_2p53_add_one
  have hx : (Child.num (.fin 9007199254740992)).toText = some "9007199254740992" :=
    (congrArg Child.toText (by norm_num)).trans (toText_num_int 9007199254740992 (by norm_num))
  have t1 : (NumberResultsShown.mk [.text "Results ", .num (.fin 9007199254740992),
      .text " - ", .num (.fin 9007199254740992)]).text
      = some "Results 9007199254740992 - 9007199254740992" :=
    text_four "Results " "9007199254740992" " - " "9007199254740992" _
      (.num (.fin 9007199254740992)) (.num (.fin 9007199254740992)) hx hx rfl
  have t2 : (NumberResultsShown.mk [.text "Results ", .num (.fin 9007199254740992),
      .text " - ", .val (.str "9007199254740994")]).text
      = some "Results 9007199254740992 - 9007199254740994" :=
    text_four "Results " "9007199254740992" " - " "9007199254740994" _
      (.num (.fin 9007199254740992)) (.val (.str "9007199254740994")) hx rfl rfl
  refine ⟨by decide, ?_, ?_, t1, t2, ?_, ?_⟩
  · rw [g1]
    simp only [e1, e2]
    rfl
  · rw [g2]
    simp only [e1, e2]
    rfl
  · rw [t1, t2]; decide
  · intro h
    have := JSNumber.fin.inj h
    norm_num at this

/-- C10, amended: with a well-formed cursor of integer offset `n`, `pageLimit >= 1` and
`dataLength >= 1`, whenever `n`, `pageLimit`, `dataLength`, `n - pageLimit` and
`n - pageLimit + 1` are at most `2 ^ 53` in magnitude, the label reads `Results {from} - {to}` with
`from = n - pageLimit + 1`, `to = from + dataLength` when `dataLength < pageLimit` and
`to = n` otherwise, and `from <= to <= n`; and for `pageLimit >= 2` the text of the
label for `dataLength = pageLimit - 1` is the text of the label for
`dataLength = pageLimit`. -/
theorem range_within_cursor {α : Type} (p : Props α) (pre : String) (n : Int)
    (hpre : ':' ∉ pre.data) (hnext : p.next = .str (pre ++ ":" ++ toString n))
    (hpl : 1 ≤ p.pageLimit) (hdl : 1 ≤ p.dataLength)
    (hn : |n| ≤ 2 ^ 53) (bpl : |p.pageLimit| ≤ 2 ^ 53) (bdl : |p.dataLength| ≤ 2 ^ 53)
    (h1 : |n - p.pageLimit| ≤ 2 ^ 53) (h2 : |n - p.pageLimit + 1| ≤ 2 ^ 53) :
    (∃ (l : NumberResultsShown) (from_ to_ : Int),
      from_ = n - p.pageLimit + 1 ∧
      to_ = (if p.dataLength < p.pageLimit then from_ + p.dataLength else n) ∧
      getPageNumber p = .ok ⟨[p.dataLength], l⟩ ∧
      l.text = some ("Results " ++ toString from_ ++ " - " ++ toString to_) ∧
      from_ ≤ to_ ∧ to_ ≤ n) ∧
    (2 ≤ p.pageLimit →
      ∃ l₁ l₂ : NumberResultsShown,
        getPageNumber { p with dataLength := p.pageLimit - 1 } = .ok ⟨[p.pageLimit - 1], l₁⟩ ∧
        getPageNumber { p with dataLength := p.pageLimit } = .ok ⟨[p.pageLimit], l₂⟩ ∧
        l₁.text = l₂.text ∧
        l₂.text = some ("Results " ++ toString (n - p.pageLimit + 1) ++ " - " ++ toString n)) := by
  obtain ⟨-, hcol, hnum⟩ := int_numeral_spec n hn
  constructor
  · have hg := getPageNumber_int p pre (toString n) n hpre hcol hnum hnext (by omega) h1 h2
    by_cases h : p.dataLength < p.pageLimit
    · have h3 : |n - p.pageLimit + 1 + p.dataLength| ≤ 2 ^ 53 := by
        rw [abs_le] at hn h2 ⊢
        constructor <;> omega
      rw [if_pos h, add_int _ _ h3] at hg
      refine ⟨_, _, _, rfl, rfl, hg, ?_, ?_, ?_⟩
      · rw [if_pos h]
        exact text_four _ _ _ _ _ _ _ (toText_num_int _ h2) (toText_num_int _ h3) rfl
      · rw [if_pos h]; omega
      · rw [if_pos h]; omega
    · rw [if_neg h] at hg
      refine ⟨_, _, _, rfl, rfl, hg, ?_, ?_, ?_⟩
      · rw [if_neg h]
        exact text_four _ _ _ _ _ _ (.val (.str (toString n))) (toText_num_int _ h2) rfl rfl
      · rw [if_neg h]; omega
      · rw [if_neg h]
  · intro hp2
    have h3 : |n - p.pageLimit + 1 + (p.pageLimit - 1)| ≤ 2 ^ 53 := by
      have e : n - p.pageLimit + 1 + (p.pageLimit - 1) = n := by ring
      rw [e]; exact hn
    have g1 := getPageNumber_int { p with dataLength := p.pageLimit - 1 } pre (toString n) n
      hpre hcol hnum hnext (by show p.pageLimit - 1 ≠ 0; omega) h1 h2
    have g2 := getPageNumber_int { p with dataLength := p.pageLimit } pre (toString n) n
      hpre hcol hnum hnext (by show p.pageLimit ≠ 0; omega) h1 h2
    rw [if_pos (show p.pageLimit - 1 < p.pageLimit by omega)] at g1
    rw [if_neg (show ¬ p.pageLimit < p.pageLimit by omega)] at g2
    dsimp only at g1 g2
    rw [add_int _ _ h3] at g1
    have e : n - p.pageLimit + 1 + (p.pageLimit - 1) = n := by ring
    have t1 := text_four "Results " _ " - " _ _ _ _
      (toText_num_int (n - p.pageLimit + 1) h2)
      (toText_num_int (n - p.pageLimit + 1 + (p.pageLimit - 1)) h3)
      (rfl : (NumberResultsShown.mk [.text "Results ",
        .num (.fin ((n - p.pageLimit + 1 : Int) : ℚ)), .text " - ",
        .num (.fin ((n - p.pageLimit + 1 + (p.pageLimit - 1) : Int) : ℚ))]).children = _)
    have t2 := text_four "Results " _ " - " (toString n) _ _ (.val (.str (toString n)))
      (toText_num_int (n - p.pageLimit + 1) h2) rfl
      (rfl : (NumberResultsShown.mk [.text "Results ",
        .num (.fin ((n - p.pageLimit + 1 : Int) : ℚ)), .text " - ",
        .val (.str (toString n))]).children = _)
    refine ⟨_, _, g1, g2, ?_, t2⟩
    rw [t1, t2, e]

/-- C10, amended, at `next = "cursor:40"`, `pageLimit = 20`, `dataLength = 5`: the range
is `21 - 26`, within `21 - 40`; and the labels for `dataLength = 19` and `20` both read
`Results 21 - 40`. -/
theorem range_within_cursor_witness :
    (∃ (l : NumberResultsShown) (from_ to_ : Int),
      from_ = 21 ∧ to_ = 26 ∧
      getPageNumber (⟨(), (), .undefined, .str "cursor:40", 20, 5⟩ : Props Unit) = .ok ⟨[5], l⟩ ∧
      l.text = some "Results 21 - 26" ∧ from_ ≤ to_ ∧ to_ ≤ 40) ∧
    ∃ l₁ l₂ : NumberResultsShown,
      getPageNumber (⟨(), (), .undefined, .str "cursor:40", 20, 19⟩ : Props Unit)
        = .ok ⟨[19], l₁⟩ ∧
      getPageNumber (⟨(), (), .undefined, .str "cursor:40", 20, 20⟩ : Props Unit)
        = .ok ⟨[20], l₂⟩ ∧
      l₁.text = l₂.text ∧ l₂.text = some "Results 21 - 40" := by
  obtain ⟨⟨l, f, t, hf, ht, hg, hx, h1, h2⟩, hsame⟩ :=
    range_within_cursor (⟨(), (), .undefined, .str "cursor:40", 20, 5⟩ : Props Unit) "cursor" 40
      (by decide) (by decide) (by decide) (by decide)
      (by norm_num) (by norm_num) (by norm_num) (by norm_num) (by norm_num)
  obtain ⟨l₁, l₂, g1, g2, e, x2⟩ := hsame (by decide)
  have hf2 : f = 21 := by rw [hf]; decide
  have ht2 : t = 26 := by rw [ht, hf2]; decide
  subst hf2 ht2
  exact ⟨⟨l, _, _, rfl, rfl, hg, hx, h1, h2⟩, l₁, l₂, g1, g2, e, x2⟩

end Pagination
